import Mathlib

/-!
Shallow embedding of the CMS content-entry data-access layer
(`getCmsCollection`, `getCmsEntry`, `createCmsEntry`, `updateCmsEntry`,
`deleteCmsEntry`, `buildCmsRelationsQuery`) of the
cloudflare-workers-nextjs-saas-template repository, together with proofs
checking the specification's claims about it.

The database is modelled as explicit in-memory lists of rows; each server
function becomes a pure Lean function from a database state (plus the
store-generated id and clock value) to a result and a new state.  Opaque
JSON payloads (`content`, `fields`) are modelled as strings: the layer
never inspects them, it only stores and compares them.
-/

/-- Entry status values stored in the `status` column (`CMS_ENTRY_STATUS`). -/
inductive CmsStatus
  | draft
  | published
  | archived
deriving DecidableEq

/-- Query-time status filter: a concrete stored status, or the pseudo-value
`all` meaning "no status filter" (type `CmsEntryStatus` in the source). -/
inductive CmsQueryStatus
  | status (s : CmsStatus)
  | all
deriving DecidableEq

/-- A collection definition from the static CMS config (`DefineCmsCollection`):
a slug plus display labels. -/
structure CmsCollection where
  slug : String
  labelSingular : String
  labelPlural : String
deriving DecidableEq

/-- The collection registry: the `cmsConfig.collections` lookup, i.e. a map
from config key to collection definition (`cmsConfig.collections[collectionSlug]`). -/
abbrev CmsRegistry := String → Option CmsCollection

/-- The blog collection of the repository's `cms.config.ts`. -/
def blogCollection : CmsCollection :=
  { slug := "blog", labelSingular := "Blog", labelPlural := "Blogs" }

/-- The concrete registry of the repository (`cms.config.ts`): a single
collection keyed `blog` whose slug is `blog`. -/
def cmsConfigCollections : CmsRegistry := fun key =>
  if key = "blog" then some blogCollection else none

/-- A row of `cmsEntryTable`.  `content` and `fields` are opaque payloads
(modelled as strings); timestamps are naturals. -/
structure CmsEntry where
  id : String
  collection : String
  slug : String
  title : String
  content : String
  fields : String
  status : CmsStatus
  createdBy : String
  updatedBy : Option String
  createdAt : Nat
  updatedAt : Nat
  publishedAt : Option Nat
deriving DecidableEq

/-- A row of `cmsEntryMediaTable`: the entry/media join with display order. -/
structure CmsEntryMedia where
  id : String
  entryId : String
  mediaId : String
  position : Option Nat
  caption : Option String
deriving DecidableEq

/-- A media asset row (public metadata columns used by the relation loader). -/
structure MediaAsset where
  id : String
  fileName : String
  mimeType : String
  sizeInBytes : Nat
  bucketKey : String
  width : Option Nat
  height : Option Nat
  alt : Option String
deriving DecidableEq

/-- A user row.  Besides the public profile columns it carries a credential
column (`passwordHash`), which the relation loader must never expose. -/
structure User where
  id : String
  firstName : Option String
  lastName : Option String
  email : Option String
  avatar : Option String
  passwordHash : Option String
deriving DecidableEq

/-- The database state: the tables touched by the CMS layer. -/
structure Db where
  entries : List CmsEntry
  entryMedia : List CmsEntryMedia
  users : List User
  media : List MediaAsset
deriving DecidableEq

/-- The `includeRelations` flags (`CmsIncludeRelations` in the source). -/
structure CmsIncludeRelations where
  createdByUser : Bool := false
  media : Bool := false
deriving DecidableEq

/-- The columns of the creator selected by `buildCmsRelationsQuery`
(`columns: { id, firstName, lastName, email, avatar }`). -/
structure CreatedByUserProfile where
  id : String
  firstName : Option String
  lastName : Option String
  email : Option String
  avatar : Option String
deriving DecidableEq

/-- Projection of a user row onto the selected public profile columns. -/
def userProfile (u : User) : CreatedByUserProfile :=
  { id := u.id, firstName := u.firstName, lastName := u.lastName,
    email := u.email, avatar := u.avatar }

/-- One loaded media association together with its referenced asset
(`with: { media: true }`). -/
structure EntryMediaWithAsset where
  assoc : CmsEntryMedia
  media : Option MediaAsset
deriving DecidableEq

/-- A query result row (`GetCmsCollectionResult`): the entry plus the
optionally loaded relations. -/
structure CmsEntryResult where
  entry : CmsEntry
  createdByUser : Option CreatedByUserProfile
  entryMedia : Option (List EntryMediaWithAsset)
deriving DecidableEq

/-- The error taxonomy of the layer.  `collectionNotFound`, `duplicateSlug`
and `entryNotFound` are the thrown `Error`s of the source;
`noValuesToSet` is the `Error` the ORM's `mapUpdateSet` throws when every
value handed to `.set(...)` is `undefined`; `updateRaceLost` is the failure
the specification requires for a zero-row update result (the implemented
code never produces it). -/
inductive CmsError
  | collectionNotFound (collectionSlug : String)
  | duplicateSlug (slug : String) (collection : String)
  | entryNotFound (id : String)
  | noValuesToSet
  | updateRaceLost (id : String)
deriving DecidableEq

/-- Ordering used by SQLite for `ORDER BY position ASC` on a nullable
column: `NULL` sorts first. -/
def optNatLe : Option Nat → Option Nat → Prop
  | none, _ => True
  | some _, none => False
  | some a, some b => a ≤ b

instance (a b : Option Nat) : Decidable (optNatLe a b) :=
  match a, b with
  | none, _ => isTrue trivial
  | some _, none => isFalse fun h => h
  | some a, some b => inferInstanceAs (Decidable (a ≤ b))

/-- `asc(fields.position)` comparison between two association rows. -/
def posLe (a b : CmsEntryMedia) : Prop := optNatLe a.position b.position

instance : DecidableRel posLe := fun a b =>
  inferInstanceAs (Decidable (optNatLe a.position b.position))

instance : IsTotal CmsEntryMedia posLe where
  total a b := by
    unfold posLe optNatLe
    cases a.position <;> cases b.position <;> simp
    exact Nat.le_total _ _

instance : IsTrans CmsEntryMedia posLe where
  trans a b c hab hbc := by
    unfold posLe optNatLe at *
    cases ha : a.position <;> cases hb : b.position <;> cases hc : c.position <;>
      simp_all
    omega

/-- `desc(cmsEntryTable.createdAt)` comparison: newest first. -/
def createdDesc (a b : CmsEntry) : Prop := b.createdAt ≤ a.createdAt

instance : DecidableRel createdDesc := fun a b =>
  inferInstanceAs (Decidable (b.createdAt ≤ a.createdAt))

instance : IsTotal CmsEntry createdDesc where
  total a b := Nat.le_total b.createdAt a.createdAt

instance : IsTrans CmsEntry createdDesc where
  trans _ _ _ hab hbc := Nat.le_trans hbc hab

/-- The status condition: pushed onto the WHERE clause only when the query
status is not `all` (`if (status !== 'all') whereConditions.push(...)`). -/
def statusMatches : CmsQueryStatus → CmsStatus → Prop
  | .all, _ => True
  | .status s, t => s = t

instance (st : CmsQueryStatus) (s : CmsStatus) : Decidable (statusMatches st s) :=
  match st with
  | .all => isTrue trivial
  | .status x => inferInstanceAs (Decidable (x = s))

/-- WHERE clause of `getCmsCollection`: collection match AND status filter. -/
def collStatusPred (c : CmsCollection) (st : CmsQueryStatus) (e : CmsEntry) : Bool :=
  decide (e.collection = c.slug ∧ statusMatches st e.status)

/-- WHERE clause of `getCmsEntry`: collection, exact slug, status filter. -/
def collSlugStatusPred (c : CmsCollection) (slug : String) (st : CmsQueryStatus)
    (e : CmsEntry) : Bool :=
  decide (e.collection = c.slug ∧ e.slug = slug ∧ statusMatches st e.status)

/-- Duplicate check of `createCmsEntry` / conflict check of `updateCmsEntry`:
same collection and same slug, with no status condition. -/
def collSlugPred (c : String) (slug : String) (e : CmsEntry) : Bool :=
  decide (e.collection = c ∧ e.slug = slug)

/-- Primary-key lookup condition `eq(cmsEntryTable.id, id)`. -/
def idPred (id : String) (e : CmsEntry) : Bool := decide (e.id = id)

/-- `limit` applied when given; no implicit cap otherwise. -/
def applyLimit {α : Type} : Option Nat → List α → List α
  | none, l => l
  | some n, l => l.take n

/-- Semantic effect of `buildCmsRelationsQuery` on one fetched entry: when
`createdByUser` is requested, join the creator row restricted to the public
profile columns; when `media` is requested, join the entry's association
rows ordered by ascending `position`, each carrying its referenced asset.
When neither flag is set, nothing is joined. -/
def loadRelations (db : Db) (inc : CmsIncludeRelations) (e : CmsEntry) : CmsEntryResult :=
  { entry := e
    createdByUser :=
      if inc.createdByUser then
        (db.users.find? fun u => decide (u.id = e.createdBy)).map userProfile
      else none
    entryMedia :=
      if inc.media then
        some ((((db.entryMedia.filter fun a => decide (a.entryId = e.id)).insertionSort
            posLe).map
          fun a =>
            { assoc := a, media := db.media.find? fun m => decide (m.id = a.mediaId) }))
      else none }

/-- `getCmsCollection`: resolve the collection (throwing when absent from the
config), filter by collection and (unless `all`) by status — the status
defaulting to `published` when unspecified — order by `createdAt`
descending, apply `offset` and `limit` when given, and load the requested
relations. -/
def getCmsCollection (cfg : CmsRegistry) (db : Db) (collectionSlug : String)
    (status : Option CmsQueryStatus) (includeRelations : CmsIncludeRelations)
    (limit offset : Option Nat) : Except CmsError (List CmsEntryResult) :=
  match cfg collectionSlug with
  | none => .error (.collectionNotFound collectionSlug)
  | some collection =>
    let st := status.getD (.status .published)
    let rows := db.entries.filter (collStatusPred collection st)
    let sorted := rows.insertionSort createdDesc
    .ok ((applyLimit limit (sorted.drop (offset.getD 0))).map
      (loadRelations db includeRelations))

/-- `getCmsEntry`: same collection/status filter as `getCmsCollection` plus an
exact slug match; `findFirst` returns the first matching row or nothing
(absent, not an error). -/
def getCmsEntry (cfg : CmsRegistry) (db : Db) (collectionSlug slug : String)
    (status : Option CmsQueryStatus) (includeRelations : CmsIncludeRelations) :
    Except CmsError (Option CmsEntryResult) :=
  match cfg collectionSlug with
  | none => .error (.collectionNotFound collectionSlug)
  | some collection =>
    let st := status.getD (.status .published)
    .ok ((db.entries.find? (collSlugStatusPred collection slug st)).map
      (loadRelations db includeRelations))

/-- Parameters of `createCmsEntry`; `status` is optional and defaults to
draft inside the operation. -/
structure CreateCmsEntryParams where
  collectionSlug : String
  slug : String
  title : String
  content : String
  fields : String
  status : Option CmsStatus := none
  createdBy : String
deriving DecidableEq

/-- The row `createCmsEntry` inserts (`db.insert(cmsEntryTable).values(...)`):
status defaults to draft when unspecified; `newId` is the store-generated id
and `now` the clock value used for the generated `createdAt`/`updatedAt`
defaults; `publishedAt` is not set by the insert and so keeps its column
default `NULL`. -/
def mkNewEntry (collection : CmsCollection) (p : CreateCmsEntryParams)
    (newId : String) (now : Nat) : CmsEntry :=
  { id := newId, collection := collection.slug, slug := p.slug,
    title := p.title, content := p.content, fields := p.fields,
    status := p.status.getD .draft, createdBy := p.createdBy,
    updatedBy := none, createdAt := now, updatedAt := now,
    publishedAt := none }

/-- `createCmsEntry`: resolve the collection, reject a duplicate
(collection, slug) pair, then insert the new row and return it. -/
def createCmsEntry (cfg : CmsRegistry) (db : Db) (p : CreateCmsEntryParams)
    (newId : String) (now : Nat) : Except CmsError (Db × CmsEntry) :=
  match cfg p.collectionSlug with
  | none => .error (.collectionNotFound p.collectionSlug)
  | some collection =>
    match db.entries.find? (collSlugPred collection.slug p.slug) with
    | some _ => .error (.duplicateSlug p.slug collection.slug)
    | none =>
      .ok ({ db with entries := db.entries ++ [mkNewEntry collection p newId now] },
        mkNewEntry collection p newId now)

/-- Parameters of `updateCmsEntry`: a partial set of attributes; `none`
models an omitted (`undefined`) attribute, which the ORM drops from the
UPDATE's SET list. -/
structure UpdateCmsEntryParams where
  id : String
  slug : Option String := none
  title : Option String := none
  content : Option String := none
  fields : Option String := none
  status : Option CmsStatus := none
deriving DecidableEq

/-- The guard `if (slug && slug !== existingEntry.slug)` of the source:
the conflict check runs only when a slug was supplied, is truthy (the empty
string is falsy in JavaScript), and differs from the current slug. -/
def slugConflictCheckNeeded (p : UpdateCmsEntryParams) (existing : CmsEntry) : Bool :=
  match p.slug with
  | none => false
  | some s => decide (s ≠ "") && decide (s ≠ existing.slug)

/-- Condition under which the ORM's `mapUpdateSet` throws
`Error('No values to set')`: it drops every `undefined` value from the SET
list handed to `.set({slug, title, content, fields, status})`, and throws —
before the UPDATE statement runs — when nothing remains, i.e. exactly when
all five attributes are omitted. -/
def updateSetEmpty (p : UpdateCmsEntryParams) : Prop :=
  p.slug = none ∧ p.title = none ∧ p.content = none ∧ p.fields = none ∧
    p.status = none

instance (p : UpdateCmsEntryParams) : Decidable (updateSetEmpty p) := by
  unfold updateSetEmpty
  infer_instance

/-- Effect of the UPDATE's SET list on one row: supplied attributes replace
the old values, omitted (`undefined`) ones are dropped from the SET list and
keep their prior values.  `publishedAt` is not in the SET list and is
untouched.  Modelled from the spec: the schema-level automatic bump of
`updatedAt` on every update (the schema file `src/db/schema.ts` is not part
of the provided sources; the spec states an update changes `updatedAt`). -/
def applyUpdate (now : Nat) (p : UpdateCmsEntryParams) (e : CmsEntry) : CmsEntry :=
  { e with
    slug := p.slug.getD e.slug
    title := p.title.getD e.title
    content := p.content.getD e.content
    fields := p.fields.getD e.fields
    status := p.status.getD e.status
    updatedAt := now }

/-- `updateCmsEntry`, with the window between its reads and its write made
explicit: `interf` is the interference applied to the database by concurrent
callers after the existence/conflict checks and before the UPDATE statement
executes.  Building the UPDATE throws the ORM's no-values-to-set error when
every SET value is omitted (this happens locally, before any write, so the
database is left untouched).  Otherwise the UPDATE affects every row
matching the id in the interfered state; `returning()` yields those rows and
the source returns `updatedEntry || null`, i.e. the first returned row or
`null` when the update affected zero rows. -/
def updateCmsEntryWith (interf : Db → Db) (db : Db) (p : UpdateCmsEntryParams)
    (now : Nat) : Except CmsError (Db × Option CmsEntry) :=
  match db.entries.find? (idPred p.id) with
  | none => .error (.entryNotFound p.id)
  | some existing =>
    match
      (if slugConflictCheckNeeded p existing then
        db.entries.find? (collSlugPred existing.collection (p.slug.getD ""))
      else none) with
    | some _ => .error (.duplicateSlug (p.slug.getD "") existing.collection)
    | none =>
      if updateSetEmpty p then .error .noValuesToSet
      else
        let db1 := interf db
        let updatedRows := (db1.entries.filter (idPred p.id)).map (applyUpdate now p)
        let db2 : Db :=
          { db1 with
            entries := db1.entries.map fun e =>
              if e.id = p.id then applyUpdate now p e else e }
        .ok (db2, updatedRows.head?)

/-- `updateCmsEntry` under sequential (non-concurrent) execution: no
interference between the checks and the UPDATE. -/
def updateCmsEntry (db : Db) (p : UpdateCmsEntryParams) (now : Nat) :
    Except CmsError (Db × Option CmsEntry) :=
  updateCmsEntryWith (fun d => d) db p now

/-- First store write of `deleteCmsEntry`: delete the entry's media
association rows (`delete(cmsEntryMediaTable).where(eq(entryId, id))`). -/
def deleteCmsEntryMediaStep (db : Db) (id : String) : Db :=
  { db with entryMedia := db.entryMedia.filter fun a => !decide (a.entryId = id) }

/-- Second store write of `deleteCmsEntry`: delete the entry row itself. -/
def deleteCmsEntryEntryStep (db : Db) (id : String) : Db :=
  { db with entries := db.entries.filter fun e => !decide (e.id = id) }

/-- `deleteCmsEntry`: check existence, then run the two deletes one after the
other (two separate store statements, no transaction). -/
def deleteCmsEntry (db : Db) (id : String) : Except CmsError Db :=
  match db.entries.find? (idPred id) with
  | none => .error (.entryNotFound id)
  | some _ => .ok (deleteCmsEntryEntryStep (deleteCmsEntryMediaStep db id) id)

/-- The uniqueness invariant: no two entry rows share the same
(collection, slug) pair. -/
def slugUnique (db : Db) : Prop :=
  db.entries.Pairwise fun a b => ¬(a.collection = b.collection ∧ a.slug = b.slug)

instance (db : Db) : Decidable (slugUnique db) := by
  unfold slugUnique
  infer_instance

/-- Well-formedness: entry ids are pairwise distinct (primary key). -/
def idsNodup (db : Db) : Prop :=
  (db.entries.map CmsEntry.id).Nodup

instance (db : Db) : Decidable (idsNodup db) := by
  unfold idsNodup
  infer_instance

/-! ### Concrete fixtures for counterexample and witness theorems -/

/-- A published entry used by the update-race scenario. -/
def c1Entry : CmsEntry :=
  { id := "e1", collection := "blog", slug := "a", title := "T", content := "c",
    fields := "f", status := .published, createdBy := "u1", updatedBy := none,
    createdAt := 1, updatedAt := 1, publishedAt := none }

/-- Database holding only `c1Entry`. -/
def c1Db : Db := { entries := [c1Entry], entryMedia := [], users := [], media := [] }

/-- Interference by a concurrent caller that deletes the row between the
existence check and the UPDATE statement. -/
def c1Interf : Db → Db := fun d => { d with entries := [] }

/-- A draft entry with a `NULL` `publishedAt`, about to be published. -/
def c2Entry : CmsEntry :=
  { id := "e1", collection := "blog", slug := "hello-world", title := "Hello",
    content := "c", fields := "f", status := .draft, createdBy := "u1",
    updatedBy := none, createdAt := 1, updatedAt := 1, publishedAt := none }

/-- Database holding only `c2Entry`. -/
def c2Db : Db := { entries := [c2Entry], entryMedia := [], users := [], media := [] }

/-- What the publish transition produces on `c2Entry` at time 10. -/
def c2Published : CmsEntry := { c2Entry with status := .published, updatedAt := 10 }

/-- An entry owning one media association. -/
def c3Entry : CmsEntry :=
  { id := "e1", collection := "blog", slug := "a", title := "T", content := "c",
    fields := "f", status := .published, createdBy := "u1", updatedBy := none,
    createdAt := 1, updatedAt := 1, publishedAt := none }

/-- The media association owned by `c3Entry`. -/
def c3Assoc : CmsEntryMedia :=
  { id := "m1", entryId := "e1", mediaId := "a1", position := some 0, caption := none }

/-- Database holding `c3Entry` and its association. -/
def c3Db : Db := { entries := [c3Entry], entryMedia := [c3Assoc], users := [], media := [] }

/-- Entry holding slug `a` in collection `blog`. -/
def c10EntryA : CmsEntry :=
  { id := "e1", collection := "blog", slug := "a", title := "A", content := "c",
    fields := "f", status := .published, createdBy := "u1", updatedBy := none,
    createdAt := 1, updatedAt := 1, publishedAt := none }

/-- Entry holding the empty slug in collection `blog`. -/
def c10EntryEmpty : CmsEntry :=
  { id := "e2", collection := "blog", slug := "", title := "B", content := "c",
    fields := "f", status := .draft, createdBy := "u1", updatedBy := none,
    createdAt := 2, updatedAt := 2, publishedAt := none }

/-- Database holding both entries; the (collection, slug) pairs are distinct. -/
def c10Db : Db :=
  { entries := [c10EntryA, c10EntryEmpty], entryMedia := [], users := [], media := [] }

/-- The update that renames `e1` to the empty slug. -/
def c10Params : UpdateCmsEntryParams := { id := "e1", slug := some "" }

/-- The empty database. -/
def emptyDb : Db := { entries := [], entryMedia := [], users := [], media := [] }

/-- Create parameters for a blog entry, used by witnesses. -/
def wCreateParams : CreateCmsEntryParams :=
  { collectionSlug := "blog", slug := "hello-world", title := "Hello", content := "c",
    fields := "f", status := some .draft, createdBy := "u1" }

/-- The row the witness create produces (store id `id1`, clock 7). -/
def wRow : CmsEntry :=
  { id := "id1", collection := "blog", slug := "hello-world", title := "Hello",
    content := "c", fields := "f", status := .draft, createdBy := "u1",
    updatedBy := none, createdAt := 7, updatedAt := 7, publishedAt := none }

/-- The database after the witness create. -/
def wDb2 : Db := { entries := [wRow], entryMedia := [], users := [], media := [] }

/-- `includeRelations` with both flags off. -/
def noRelations : CmsIncludeRelations := { createdByUser := false, media := false }

/-- A published blog entry used by the list-query witness. -/
def c5Entry : CmsEntry :=
  { id := "e5", collection := "blog", slug := "s5", title := "T5", content := "c",
    fields := "f", status := .published, createdBy := "u1", updatedBy := none,
    createdAt := 3, updatedAt := 3, publishedAt := none }

/-- Database holding only `c5Entry`. -/
def c5Db : Db := { entries := [c5Entry], entryMedia := [], users := [], media := [] }

/-- The entry whose relations the relation-loader witness loads. -/
def c9Entry : CmsEntry :=
  { id := "e1", collection := "blog", slug := "a", title := "T", content := "c",
    fields := "f", status := .published, createdBy := "u1", updatedBy := none,
    createdAt := 1, updatedAt := 1, publishedAt := none }

/-- The creator row, carrying a credential column. -/
def c9User : User :=
  { id := "u1", firstName := some "A", lastName := some "B", email := some "a@b",
    avatar := none, passwordHash := some "secret-hash" }

/-- A media asset referenced by one of the associations. -/
def c9Asset : MediaAsset :=
  { id := "a1", fileName := "x.png", mimeType := "image/png", sizeInBytes := 10,
    bucketKey := "k", width := some 1, height := some 1, alt := none }

/-- Association at position 2 (stored first, out of order). -/
def c9A1 : CmsEntryMedia :=
  { id := "m1", entryId := "e1", mediaId := "a1", position := some 2, caption := none }

/-- Association at position 1 (stored second). -/
def c9A2 : CmsEntryMedia :=
  { id := "m2", entryId := "e1", mediaId := "a2", position := some 1, caption := none }

/-- Association belonging to a different entry (must be filtered out). -/
def c9A3 : CmsEntryMedia :=
  { id := "m3", entryId := "e9", mediaId := "a1", position := some 0, caption := none }

/-- Database for the relation-loader witness. -/
def c9Db : Db :=
  { entries := [c9Entry], entryMedia := [c9A1, c9A2, c9A3], users := [c9User],
    media := [c9Asset] }

/-- Both relation flags requested. -/
def c9Inc : CmsIncludeRelations := { createdByUser := true, media := true }

/-! ### Theorems -/

/-- The first row surviving a filter is the first row satisfying it. -/
theorem filter_head?_eq_find? {α : Type} (p : α → Bool) (l : List α) :
    (l.filter p).head? = l.find? p := by
  induction l with
  | nil => rfl
  | cons a l ih => cases h : p a <;> simp [List.filter_cons, List.find?_cons, h, ih]

/-- The single-entry WHERE clause holds iff its three conditions hold. -/
theorem collSlugStatusPred_eq_true {c : CmsCollection} {slug : String}
    {st : CmsQueryStatus} {e : CmsEntry} :
    collSlugStatusPred c slug st e = true ↔
      e.collection = c.slug ∧ e.slug = slug ∧ statusMatches st e.status := by
  simp [collSlugStatusPred]

/-- The duplicate-check WHERE clause holds iff its two conditions hold. -/
theorem collSlugPred_eq_true {c slug : String} {e : CmsEntry} :
    collSlugPred c slug e = true ↔ e.collection = c ∧ e.slug = slug := by
  simp [collSlugPred]

/-- The id-lookup condition holds iff the id matches. -/
theorem idPred_eq_true {id : String} {e : CmsEntry} :
    idPred id e = true ↔ e.id = id := by
  simp [idPred]

/-- Projecting loaded results back onto their entries recovers the row list. -/
theorem map_entry_loadRelations (db : Db) (inc : CmsIncludeRelations)
    (l : List CmsEntry) :
    (l.map (loadRelations db inc)).map CmsEntryResult.entry = l := by
  rw [List.map_map]
  exact List.map_id l

/-- Mapping a result shaper commutes with the limit. -/
theorem map_applyLimit {α β : Type} (f : α → β) (lim : Option Nat) (l : List α) :
    (applyLimit lim l).map f = applyLimit lim (l.map f) := by
  cases lim <;> simp [applyLimit, List.map_take]

/-- A limit only drops rows, so it preserves pairwise orderedness. -/
theorem pairwise_applyLimit {α : Type} {R : α → α → Prop} {l : List α}
    (h : l.Pairwise R) (lim : Option Nat) : (applyLimit lim l).Pairwise R := by
  cases lim with
  | none => exact h
  | some k => exact List.Pairwise.sublist (List.take_sublist k l) h

/-- Unfolding of `getCmsCollection` on a resolvable collection slug. -/
theorem getCmsCollection_some {cfg : CmsRegistry} {cs : String} {c : CmsCollection}
    (db : Db) (st : Option CmsQueryStatus) (inc : CmsIncludeRelations)
    (lim off : Option Nat) (h : cfg cs = some c) :
    getCmsCollection cfg db cs st inc lim off =
      .ok ((applyLimit lim
        (((db.entries.filter
          (collStatusPred c (st.getD (.status .published)))).insertionSort
            createdDesc).drop (off.getD 0))).map (loadRelations db inc)) := by
  simp [getCmsCollection, h]

/-- **C1** (status: code_bug). The specification requires `updateCmsEntry` to
fail with `UpdateRaceLost` when the row vanishes between the existence check
and the UPDATE statement.  The implemented code instead returns
`updatedEntry || null`: evaluated on a database whose only entry is deleted
by a concurrent caller inside that window, the operation succeeds with an
absent (`none`) result — silently, never producing
`CmsError.updateRaceLost`. -/
theorem C1_update_race_returns_absent :
    updateCmsEntryWith c1Interf c1Db { id := "e1", title := some "New" } 5 =
      .ok ({ c1Db with entries := [] }, none) ∧
    (Except.ok ({ c1Db with entries := [] }, none) :
        Except CmsError (Db × Option CmsEntry)) ≠
      .error (.updateRaceLost "e1") := by
  exact ⟨rfl, fun h => Except.noConfusion h⟩

/-- **C2** (status: code_bug). The specification says `publishedAt` is set to
a non-null timestamp on the first transition to published.  The implemented
`updateCmsEntry` never writes `publishedAt` (its SET list holds only slug,
title, content, fields, status) and `createCmsEntry` never sets it either:
publishing the draft entry `c2Entry` succeeds but leaves `publishedAt`
`NULL`. -/
theorem C2_publish_leaves_publishedAt_null :
    updateCmsEntry c2Db { id := "e1", status := some .published } 10 =
      .ok ({ c2Db with entries := [c2Published] }, some c2Published) ∧
    c2Published.status = .published ∧
    c2Published.publishedAt = none := by
  exact ⟨rfl, rfl, rfl⟩

/-- **C3** (status: code_bug). The specification requires the two deletes of
`deleteCmsEntry` to run as one atomic unit so that a failure between them
leaves the state unchanged.  The implemented code runs them as two separate
sequential store statements: on a database with an entry and one media
association, the intermediate state reached after the association delete and
before the entry delete differs from both the initial and the final state —
it still holds the entry row but no longer its association (a half-deleted
state a failure would expose). -/
theorem C3_delete_two_steps_not_atomic :
    deleteCmsEntry c3Db "e1" =
      .ok (deleteCmsEntryEntryStep (deleteCmsEntryMediaStep c3Db "e1") "e1") ∧
    deleteCmsEntryMediaStep c3Db "e1" = { c3Db with entryMedia := [] } ∧
    ({ c3Db with entryMedia := [] } : Db) ≠ c3Db ∧
    deleteCmsEntry c3Db "e1" = .ok { c3Db with entries := [], entryMedia := [] } ∧
    ({ c3Db with entryMedia := [] } : Db) ≠ { c3Db with entries := [], entryMedia := [] } ∧
    c3Entry ∈ ({ c3Db with entryMedia := [] } : Db).entries := by
  exact ⟨rfl, rfl, by decide, rfl, by decide, by decide⟩

/-- **C4** (status: confirmed). `createCmsEntry` fails with
`CollectionNotFound` when the collection slug is absent from the registry;
fails with `DuplicateSlug` when an entry with the same (collection, slug)
already exists (whatever its status); otherwise inserts a row whose status
is the supplied status, defaulting to draft when unspecified, and returns
the persisted row with its generated id and timestamps.  Issuing the create
twice with the same (collection, slug) yields exactly one success and one
duplicate failure: the second call on the resulting state fails
`DuplicateSlug`. -/
theorem C4_createCmsEntry_spec (cfg : CmsRegistry) (db : Db)
    (p : CreateCmsEntryParams) (newId : String) (now : Nat) :
    (cfg p.collectionSlug = none →
      createCmsEntry cfg db p newId now =
        .error (.collectionNotFound p.collectionSlug)) ∧
    ∀ c, cfg p.collectionSlug = some c →
      ((∃ e ∈ db.entries, e.collection = c.slug ∧ e.slug = p.slug) →
        createCmsEntry cfg db p newId now = .error (.duplicateSlug p.slug c.slug)) ∧
      ((∀ e ∈ db.entries, ¬(e.collection = c.slug ∧ e.slug = p.slug)) →
        ∃ db2 row, createCmsEntry cfg db p newId now = .ok (db2, row) ∧
          row.status = p.status.getD .draft ∧
          row.collection = c.slug ∧ row.slug = p.slug ∧ row.title = p.title ∧
          row.content = p.content ∧ row.fields = p.fields ∧
          row.createdBy = p.createdBy ∧ row.id = newId ∧
          row.createdAt = now ∧ row.updatedAt = now ∧ row.publishedAt = none ∧
          db2.entries = db.entries ++ [row] ∧
          ∀ p2 : CreateCmsEntryParams, p2.collectionSlug = p.collectionSlug →
            p2.slug = p.slug → ∀ newId2 now2,
            createCmsEntry cfg db2 p2 newId2 now2 =
              .error (.duplicateSlug p.slug c.slug)) := by
  constructor
  · intro h
    simp [createCmsEntry, h]
  · intro c hc
    constructor
    · rintro ⟨e, he, h1, h2⟩
      cases hf : db.entries.find? (collSlugPred c.slug p.slug) with
      | none =>
        exact absurd (List.find?_eq_none.mp hf e he)
          (by simp [collSlugPred, h1, h2])
      | some x => simp [createCmsEntry, hc, hf]
    · intro hall
      have hf : db.entries.find? (collSlugPred c.slug p.slug) = none := by
        rw [List.find?_eq_none]
        intro x hx hpx
        exact hall x hx (of_decide_eq_true hpx)
      have hok : createCmsEntry cfg db p newId now =
          .ok ({ db with entries := db.entries ++ [mkNewEntry c p newId now] },
            mkNewEntry c p newId now) := by
        simp [createCmsEntry, hc, hf]
      refine ⟨_, _, hok, rfl, rfl, rfl, rfl, rfl, rfl, rfl, rfl, rfl, rfl, rfl,
        rfl, ?_⟩
      intro p2 hcs2 hs2 newId2 now2
      have hc2 : cfg p2.collectionSlug = some c := by rw [hcs2, hc]
      simp [createCmsEntry, hc2, hs2, hf, collSlugPred, mkNewEntry]

/-- Witness for C4: on the empty database the blog create succeeds and
produces `wRow`; repeating it on the resulting state fails with the
duplicate-slug error. -/
theorem C4_createCmsEntry_spec_witness :
    createCmsEntry cmsConfigCollections emptyDb wCreateParams "id1" 7 =
      .ok (wDb2, wRow) ∧
    wRow.status = wCreateParams.status.getD .draft ∧
    createCmsEntry cmsConfigCollections wDb2 wCreateParams "id2" 8 =
      .error (.duplicateSlug "hello-world" "blog") := by
  refine ⟨rfl, rfl, ?_⟩
  have h := (C4_createCmsEntry_spec cmsConfigCollections wDb2 wCreateParams
    "id2" 8).2 blogCollection rfl
  exact h.1 ⟨wRow, by decide, by decide, by decide⟩

/-- Unfolding of `getCmsCollection` without limit and offset. -/
theorem getCmsCollection_some_unpaged {cfg : CmsRegistry} {cs : String}
    {c : CmsCollection} (db : Db) (st : Option CmsQueryStatus)
    (inc : CmsIncludeRelations) (h : cfg cs = some c) :
    getCmsCollection cfg db cs st inc none none =
      .ok (((db.entries.filter
        (collStatusPred c (st.getD (.status .published)))).insertionSort
          createdDesc).map (loadRelations db inc)) := by
  simp [getCmsCollection, h, applyLimit]

/-- **C5** (status: confirmed). For a resolvable collection slug,
`getCmsCollection` returns exactly the entries matching the conjunctive
filter — collection equals the registry slug AND, unless the requested
status is `all`, status equals the requested status, the default being
`published` when unspecified — sorted by `createdAt` descending; `limit`
and `offset` are applied exactly when given (the unpaged call has no
implicit cap), and an unresolvable collection slug fails with
`CollectionNotFound`. -/
theorem C5_getCmsCollection_spec (cfg : CmsRegistry) (db : Db) (cs : String)
    (st : Option CmsQueryStatus) (inc : CmsIncludeRelations) (lim off : Option Nat) :
    (cfg cs = none →
      getCmsCollection cfg db cs st inc lim off = .error (.collectionNotFound cs)) ∧
    (getCmsCollection cfg db cs none inc lim off =
      getCmsCollection cfg db cs (some (.status .published)) inc lim off) ∧
    (∀ c rs, cfg cs = some c →
      getCmsCollection cfg db cs st inc none none = .ok rs →
      (rs.map CmsEntryResult.entry).Perm
        (db.entries.filter (collStatusPred c (st.getD (.status .published)))) ∧
      ∀ e : CmsEntry, e ∈ rs.map CmsEntryResult.entry ↔
        e ∈ db.entries ∧ e.collection = c.slug ∧
          statusMatches (st.getD (.status .published)) e.status) ∧
    (∀ rs, getCmsCollection cfg db cs st inc lim off = .ok rs →
      rs.Pairwise fun a b => b.entry.createdAt ≤ a.entry.createdAt) ∧
    (∀ rs rsAll, getCmsCollection cfg db cs st inc lim off = .ok rs →
      getCmsCollection cfg db cs st inc none none = .ok rsAll →
      rs = applyLimit lim (rsAll.drop (off.getD 0))) := by
  refine ⟨?_, ?_, ?_, ?_, ?_⟩
  · intro h
    simp [getCmsCollection, h]
  · rfl
  · intro c rs hc hok
    rw [getCmsCollection_some_unpaged db st inc hc] at hok
    injection hok with h
    subst h
    constructor
    · rw [map_entry_loadRelations]
      exact List.perm_insertionSort _ _
    · intro e
      rw [map_entry_loadRelations, (List.perm_insertionSort createdDesc _).mem_iff,
        List.mem_filter]
      simp [collStatusPred]
  · intro rs hok
    cases hcfg : cfg cs with
    | none => simp [getCmsCollection, hcfg] at hok
    | some c =>
      rw [getCmsCollection_some db st inc lim off hcfg] at hok
      injection hok with h
      subst h
      rw [List.pairwise_map]
      have h1 : (((db.entries.filter
          (collStatusPred c (st.getD (.status .published)))).insertionSort
            createdDesc).drop (off.getD 0)).Pairwise createdDesc :=
        List.Pairwise.sublist (List.drop_sublist _ _)
          (List.sorted_insertionSort createdDesc _)
      exact (pairwise_applyLimit h1 lim).imp fun h => h
  · intro rs rsAll hok hokAll
    cases hcfg : cfg cs with
    | none => simp [getCmsCollection, hcfg] at hok
    | some c =>
      rw [getCmsCollection_some db st inc lim off hcfg] at hok
      rw [getCmsCollection_some_unpaged db st inc hcfg] at hokAll
      injection hok with h
      subst h
      injection hokAll with h2
      subst h2
      rw [map_applyLimit, List.map_drop]

/-- Witness for C5: on a database with one published blog entry, an unknown
collection fails with `CollectionNotFound`, the default-status query returns
exactly the published entry, the result set equals the filter, and the
result is sorted by `createdAt` descending. -/
theorem C5_getCmsCollection_spec_witness :
    cmsConfigCollections "news" = none ∧
    getCmsCollection cmsConfigCollections c5Db "news" none noRelations none none =
      .error (.collectionNotFound "news") ∧
    cmsConfigCollections "blog" = some blogCollection ∧
    getCmsCollection cmsConfigCollections c5Db "blog" none noRelations none none =
      .ok [{ entry := c5Entry, createdByUser := none, entryMedia := none }] ∧
    (([{ entry := c5Entry, createdByUser := none, entryMedia := none }] :
        List CmsEntryResult).map CmsEntryResult.entry).Perm
      (c5Db.entries.filter (collStatusPred blogCollection (.status .published))) ∧
    (c5Entry ∈ ([{ entry := c5Entry, createdByUser := none, entryMedia := none }] :
        List CmsEntryResult).map CmsEntryResult.entry ↔
      c5Entry ∈ c5Db.entries ∧ c5Entry.collection = blogCollection.slug ∧
        statusMatches (.status .published) c5Entry.status) ∧
    ([{ entry := c5Entry, createdByUser := none, entryMedia := none }] :
        List CmsEntryResult).Pairwise
      fun a b => b.entry.createdAt ≤ a.entry.createdAt := by
  have h := C5_getCmsCollection_spec cmsConfigCollections c5Db "blog" none
    noRelations none none
  have hn := C5_getCmsCollection_spec cmsConfigCollections c5Db "news" none
    noRelations none none
  refine ⟨rfl, hn.1 rfl, rfl, rfl, ?_, ?_, ?_⟩
  · exact (h.2.2.1 blogCollection
      [{ entry := c5Entry, createdByUser := none, entryMedia := none }] rfl rfl).1
  · exact (h.2.2.1 blogCollection
      [{ entry := c5Entry, createdByUser := none, entryMedia := none }] rfl rfl).2 c5Entry
  · exact h.2.2.2.1
      [{ entry := c5Entry, createdByUser := none, entryMedia := none }] rfl

/-- **C6** (status: confirmed). `getCmsEntry` applies the same collection and
status filter as `getCmsCollection` plus an exact slug match, returns at most
one row (an `Option`), and returns `none` — not an error — when no row
matches; any returned row satisfies the filter and belongs to the
corresponding `getCmsCollection` result set.  In particular, when every
matching row is a draft, the default (published) filter returns `none` while
a query with status `all` returns the entry with its draft status. -/
theorem C6_getCmsEntry_spec (cfg : CmsRegistry) (db : Db) (cs slug : String)
    (st : Option CmsQueryStatus) (inc : CmsIncludeRelations) :
    (cfg cs = none →
      getCmsEntry cfg db cs slug st inc = .error (.collectionNotFound cs)) ∧
    (∀ c, cfg cs = some c →
      ∃ r, getCmsEntry cfg db cs slug st inc = .ok r ∧
        (r = none ↔ ∀ e ∈ db.entries,
          ¬(e.collection = c.slug ∧ e.slug = slug ∧
            statusMatches (st.getD (.status .published)) e.status)) ∧
        ∀ x, r = some x →
          x.entry ∈ db.entries ∧ x.entry.collection = c.slug ∧
          x.entry.slug = slug ∧
          statusMatches (st.getD (.status .published)) x.entry.status ∧
          ∀ rsAll, getCmsCollection cfg db cs st inc none none = .ok rsAll →
            x.entry ∈ rsAll.map CmsEntryResult.entry) ∧
    (∀ c, cfg cs = some c →
      (∀ e ∈ db.entries, e.collection = c.slug → e.slug = slug →
        e.status = .draft) →
      getCmsEntry cfg db cs slug none inc = .ok none ∧
      ((∃ e ∈ db.entries, e.collection = c.slug ∧ e.slug = slug) →
        ∃ x, getCmsEntry cfg db cs slug (some .all) inc = .ok (some x) ∧
          x.entry.status = .draft)) := by
  refine ⟨?_, ?_, ?_⟩
  · intro h
    simp [getCmsEntry, h]
  · intro c hc
    refine ⟨(db.entries.find? (collSlugStatusPred c slug
        (st.getD (.status .published)))).map (loadRelations db inc),
      by simp [getCmsEntry, hc], ?_, ?_⟩
    · rw [Option.map_eq_none', List.find?_eq_none]
      constructor
      · intro h e he hp
        exact h e he (collSlugStatusPred_eq_true.mpr hp)
      · intro h e he hp
        exact h e he (collSlugStatusPred_eq_true.mp hp)
    · intro x hx
      rw [Option.map_eq_some'] at hx
      obtain ⟨y, hy, hxy⟩ := hx
      have hmem := List.mem_of_find?_eq_some hy
      obtain ⟨h1, h2, h3⟩ := collSlugStatusPred_eq_true.mp (List.find?_some hy)
      subst hxy
      refine ⟨hmem, h1, h2, h3, ?_⟩
      intro rsAll hok
      rw [getCmsCollection_some_unpaged db st inc hc] at hok
      injection hok with h
      subst h
      rw [map_entry_loadRelations, (List.perm_insertionSort createdDesc _).mem_iff,
        List.mem_filter]
      exact ⟨hmem, by simp only [collStatusPred, decide_eq_true_eq]; exact ⟨h1, h3⟩⟩
  · intro c hc hall
    constructor
    · have hf : db.entries.find?
          (collSlugStatusPred c slug (.status .published)) = none := by
        rw [List.find?_eq_none]
        intro e he hp
        obtain ⟨h1, h2, h3⟩ := collSlugStatusPred_eq_true.mp hp
        rw [hall e he h1 h2] at h3
        exact CmsStatus.noConfusion h3
      simp [getCmsEntry, hc, hf]
    · rintro ⟨e, he, h1, h2⟩
      have hsome : (db.entries.find? (collSlugStatusPred c slug .all)).isSome := by
        rw [List.find?_isSome]
        exact ⟨e, he, collSlugStatusPred_eq_true.mpr ⟨h1, h2, trivial⟩⟩
      obtain ⟨y, hy⟩ := Option.isSome_iff_exists.mp hsome
      obtain ⟨g1, g2, _⟩ := collSlugStatusPred_eq_true.mp (List.find?_some hy)
      refine ⟨loadRelations db inc y, by simp [getCmsEntry, hc, hy], ?_⟩
      exact hall y (List.mem_of_find?_eq_some hy) g1 g2

/-- Witness for C6: the draft entry `c2Entry` is absent under the default
published filter and returned with its draft status under `all`. -/
theorem C6_getCmsEntry_spec_witness :
    getCmsEntry cmsConfigCollections c2Db "blog" "hello-world" none noRelations =
      .ok none ∧
    getCmsEntry cmsConfigCollections c2Db "blog" "hello-world" (some .all)
        noRelations =
      .ok (some { entry := c2Entry, createdByUser := none, entryMedia := none }) ∧
    c2Entry.status = .draft := by
  have h := (C6_getCmsEntry_spec cmsConfigCollections c2Db "blog" "hello-world"
    none noRelations).2.2 blogCollection rfl (by decide)
  exact ⟨h.1, rfl, rfl⟩

/-- **C7** counterexample. The claim's empty-partial scenario — an update
supplying no content attributes succeeds, changing only `updatedAt` — fails
on the code: with every SET value omitted the ORM throws its
no-values-to-set error before the UPDATE statement runs, so the operation
errors instead of returning the row with a bumped `updatedAt`. -/
theorem C7_empty_partial_throws :
    updateCmsEntry c1Db { id := "e1" } 4 = .error .noValuesToSet ∧
    updateCmsEntry c1Db { id := "e1" } 4 ≠
      .ok ({ c1Db with entries := [{ c1Entry with updatedAt := 4 }] },
        some { c1Entry with updatedAt := 4 }) := by
  have h1 : updateCmsEntry c1Db { id := "e1" } 4 = .error .noValuesToSet := rfl
  refine ⟨h1, fun h => ?_⟩
  rw [h1] at h
  exact Except.noConfusion h

/-- **C7** (status: corrected; the `updatedAt` bump on successful updates is
modelled from the spec since the schema file is not among the sources).
Amended claim: `updateCmsEntry` changes only the attributes supplied in its
input — for every successful update, every omitted attribute keeps its prior
value, the identity/audit columns and `publishedAt` are never touched,
`updatedAt` becomes the current clock value, and rows with a different id
are left in place.  An update supplying no content attributes, however, does
not succeed with a lone `updatedAt` bump: the ORM throws its
no-values-to-set error before the UPDATE runs, leaving the stored entry
entirely unchanged. -/
theorem C7_updateCmsEntry_frame_amended (db : Db) (p : UpdateCmsEntryParams)
    (now : Nat) (e : CmsEntry)
    (hfind : db.entries.find? (idPred p.id) = some e) :
    (updateSetEmpty p → updateCmsEntry db p now = .error .noValuesToSet) ∧
    ∀ db2 u, updateCmsEntry db p now = .ok (db2, some u) →
      u = applyUpdate now p e ∧
      (p.slug = none → u.slug = e.slug) ∧
      (p.title = none → u.title = e.title) ∧
      (p.content = none → u.content = e.content) ∧
      (p.fields = none → u.fields = e.fields) ∧
      (p.status = none → u.status = e.status) ∧
      u.id = e.id ∧ u.collection = e.collection ∧ u.createdBy = e.createdBy ∧
      u.updatedBy = e.updatedBy ∧ u.createdAt = e.createdAt ∧
      u.publishedAt = e.publishedAt ∧ u.updatedAt = now ∧
      (∀ x ∈ db.entries, x.id ≠ p.id → x ∈ db2.entries) ∧
      db2.entryMedia = db.entryMedia ∧ db2.users = db.users ∧
      db2.media = db.media := by
  constructor
  · intro hemp
    have hneed : slugConflictCheckNeeded p e = false := by
      simp [slugConflictCheckNeeded, hemp.1]
    simp only [updateCmsEntry, updateCmsEntryWith, hfind, hneed]
    rw [if_pos hemp]
    rfl
  · intro db2 u hok
    simp only [updateCmsEntry, updateCmsEntryWith, hfind] at hok
    cases hconf : (if slugConflictCheckNeeded p e then
        db.entries.find? (collSlugPred e.collection (p.slug.getD "")) else none) with
    | some z =>
      rw [hconf] at hok
      cases hok
    | none =>
      rw [hconf] at hok
      by_cases hemp : updateSetEmpty p
      · rw [if_pos hemp] at hok
        cases hok
      · rw [if_neg hemp] at hok
        injection hok with h1
        injection h1 with hdb hrow
        subst hdb
        rw [List.head?_map, filter_head?_eq_find?, hfind] at hrow
        simp only [Option.map_some'] at hrow
        injection hrow with hu
        subst hu
        refine ⟨rfl, ?_, ?_, ?_, ?_, ?_, rfl, rfl, rfl, rfl, rfl, rfl, rfl, ?_,
          rfl, rfl, rfl⟩
        · intro h; simp [applyUpdate, h]
        · intro h; simp [applyUpdate, h]
        · intro h; simp [applyUpdate, h]
        · intro h; simp [applyUpdate, h]
        · intro h; simp [applyUpdate, h]
        · intro x hx hne
          have hfix : (if x.id = p.id then applyUpdate now p x else x) = x :=
            if_neg hne
          exact hfix ▸ List.mem_map_of_mem _ hx

/-- Witness for C7's amended theorem: the empty partial on `c1Db` throws the
no-values-to-set error, while a title-only update succeeds and, by the frame
theorem, equals `applyUpdate` of the found row and keeps the omitted slug. -/
theorem C7_updateCmsEntry_frame_amended_witness :
    c1Db.entries.find? (idPred "e1") = some c1Entry ∧
    updateCmsEntry c1Db { id := "e1" } 4 = .error .noValuesToSet ∧
    updateCmsEntry c1Db { id := "e1", title := some "New" } 5 =
      .ok ({ c1Db with entries := [{ c1Entry with title := "New", updatedAt := 5 }] },
        some { c1Entry with title := "New", updatedAt := 5 }) ∧
    ({ c1Entry with title := "New", updatedAt := 5 } : CmsEntry) =
      applyUpdate 5 { id := "e1", title := some "New" } c1Entry ∧
    ({ c1Entry with title := "New", updatedAt := 5 } : CmsEntry).slug =
      c1Entry.slug := by
  have h4 := C7_updateCmsEntry_frame_amended c1Db { id := "e1" } 4 c1Entry rfl
  have h5 := C7_updateCmsEntry_frame_amended c1Db
    { id := "e1", title := some "New" } 5 c1Entry rfl
  have hok : updateCmsEntry c1Db { id := "e1", title := some "New" } 5 =
      .ok ({ c1Db with entries := [{ c1Entry with title := "New", updatedAt := 5 }] },
        some { c1Entry with title := "New", updatedAt := 5 }) := rfl
  have hframe := h5.2 _ _ hok
  exact ⟨rfl, h4.1 (by decide), hok, hframe.1, hframe.2.1 rfl⟩

/-- **C8** (status: confirmed). After a successful `createCmsEntry`, querying
the same collection and slug with status `all` returns the freshly persisted
row, whose collection, slug, title, content, fields and status match what
was created (status defaulting to draft). -/
theorem C8_create_get_roundtrip (cfg : CmsRegistry) (db : Db)
    (p : CreateCmsEntryParams) (newId : String) (now : Nat) (db2 : Db)
    (row : CmsEntry) (inc : CmsIncludeRelations)
    (hok : createCmsEntry cfg db p newId now = .ok (db2, row)) :
    getCmsEntry cfg db2 p.collectionSlug p.slug (some .all) inc =
      .ok (some (loadRelations db2 inc row)) ∧
    (loadRelations db2 inc row).entry = row ∧
    row.slug = p.slug ∧ row.title = p.title ∧ row.content = p.content ∧
    row.fields = p.fields ∧ row.status = p.status.getD .draft ∧
    (∀ c, cfg p.collectionSlug = some c → row.collection = c.slug) := by
  cases hc : cfg p.collectionSlug with
  | none =>
    simp only [createCmsEntry, hc] at hok
    cases hok
  | some c =>
    cases hf : db.entries.find? (collSlugPred c.slug p.slug) with
    | some z =>
      simp only [createCmsEntry, hc, hf] at hok
      cases hok
    | none =>
      simp only [createCmsEntry, hc, hf] at hok
      injection hok with h1
      injection h1 with hdb hrow
      subst hdb
      subst hrow
      have hleft : db.entries.find? (collSlugStatusPred c p.slug .all) = none := by
        rw [List.find?_eq_none]
        intro x hx hp
        obtain ⟨hxc, hxs, _⟩ := collSlugStatusPred_eq_true.mp hp
        exact absurd (collSlugPred_eq_true.mpr ⟨hxc, hxs⟩)
          (List.find?_eq_none.mp hf x hx)
      have hfind : (db.entries ++ [mkNewEntry c p newId now]).find?
          (collSlugStatusPred c p.slug .all) = some (mkNewEntry c p newId now) := by
        rw [List.find?_append, hleft]
        simp [collSlugStatusPred, mkNewEntry, statusMatches]
      refine ⟨by simp [getCmsEntry, hc, hfind], rfl, rfl, rfl, rfl, rfl, rfl, ?_⟩
      intro c2 hc2
      injection hc2 with hcc
      rw [← hcc]
      rfl

/-- Witness for C8: creating the blog entry on the empty database and reading
it back with status `all` round-trips. -/
theorem C8_create_get_roundtrip_witness :
    createCmsEntry cmsConfigCollections emptyDb wCreateParams "id1" 7 =
      .ok (wDb2, wRow) ∧
    getCmsEntry cmsConfigCollections wDb2 "blog" "hello-world" (some .all)
        noRelations =
      .ok (some { entry := wRow, createdByUser := none, entryMedia := none }) ∧
    wRow.title = wCreateParams.title ∧ wRow.status = .draft := by
  have h := C8_create_get_roundtrip cmsConfigCollections emptyDb wCreateParams
    "id1" 7 wDb2 wRow noRelations rfl
  exact ⟨rfl, h.1, rfl, rfl⟩

/-- **C9** (status: confirmed). With neither relation flag set the query adds
no relations; with the media flag set the entry's own media associations are
produced in ascending `position` order (exactly the associations whose
`entryId` matches, each carrying its referenced asset); with the creator
flag set the loaded profile is the projection of the creator row onto id,
first name, last name, email and avatar only — it is determined by those
five columns alone, so credential columns such as `passwordHash` can never
influence (or leak into) the result. -/
theorem C9_relations_spec (db : Db) (inc : CmsIncludeRelations) (e : CmsEntry) :
    (inc.createdByUser = false → inc.media = false →
      loadRelations db inc e =
        { entry := e, createdByUser := none, entryMedia := none }) ∧
    (inc.media = true → ∃ l, (loadRelations db inc e).entryMedia = some l ∧
      l.Pairwise (fun a b => optNatLe a.assoc.position b.assoc.position) ∧
      (l.map EntryMediaWithAsset.assoc).Perm
        (db.entryMedia.filter fun a => decide (a.entryId = e.id)) ∧
      ∀ x ∈ l, x.media = db.media.find? fun m => decide (m.id = x.assoc.mediaId)) ∧
    (inc.createdByUser = true →
      (loadRelations db inc e).createdByUser =
        (db.users.find? fun u => decide (u.id = e.createdBy)).map userProfile) ∧
    (∀ u1 u2 : User, u1.id = u2.id → u1.firstName = u2.firstName →
      u1.lastName = u2.lastName → u1.email = u2.email → u1.avatar = u2.avatar →
      userProfile u1 = userProfile u2) ∧
    (∀ u : User, (userProfile u).id = u.id ∧
      (userProfile u).firstName = u.firstName ∧
      (userProfile u).lastName = u.lastName ∧ (userProfile u).email = u.email ∧
      (userProfile u).avatar = u.avatar) := by
  refine ⟨?_, ?_, ?_, ?_, ?_⟩
  · intro h1 h2
    simp [loadRelations, h1, h2]
  · intro hm
    refine ⟨((db.entryMedia.filter fun a =>
        decide (a.entryId = e.id)).insertionSort posLe).map
      (fun a => { assoc := a, media := db.media.find? fun m => decide (m.id = a.mediaId) }),
      by simp [loadRelations, hm], ?_, ?_, ?_⟩
    · rw [List.pairwise_map]
      exact (List.sorted_insertionSort posLe _).imp fun h => h
    · rw [List.map_map]
      have hid : ((EntryMediaWithAsset.assoc ∘ fun a =>
          ({ assoc := a, media := db.media.find? fun m => decide (m.id = a.mediaId) } :
            EntryMediaWithAsset))) = id := rfl
      rw [hid, List.map_id]
      exact List.perm_insertionSort _ _
    · intro x hx
      obtain ⟨a, _, hax⟩ := List.mem_map.mp hx
      subst hax
      rfl
  · intro hc
    simp [loadRelations, hc]
  · intro u1 u2 h1 h2 h3 h4 h5
    simp [userProfile, h1, h2, h3, h4, h5]
  · intro u
    exact ⟨rfl, rfl, rfl, rfl, rfl⟩

/-- Witness for C9: on `c9Db` the loader returns the two associations of
`e1` sorted by ascending position (the other entry's association filtered
out), the creator profile, and the profile ignores the credential column. -/
theorem C9_relations_spec_witness :
    (loadRelations c9Db c9Inc c9Entry).entryMedia =
      some [{ assoc := c9A2, media := none },
        { assoc := c9A1, media := some c9Asset }] ∧
    ([{ assoc := c9A2, media := none }, { assoc := c9A1, media := some c9Asset }] :
        List EntryMediaWithAsset).Pairwise
      (fun a b => optNatLe a.assoc.position b.assoc.position) ∧
    (loadRelations c9Db c9Inc c9Entry).createdByUser = some (userProfile c9User) ∧
    userProfile c9User = userProfile { c9User with passwordHash := none } ∧
    loadRelations c9Db noRelations c9Entry =
      { entry := c9Entry, createdByUser := none, entryMedia := none } := by
  have h := C9_relations_spec c9Db c9Inc c9Entry
  refine ⟨rfl, by decide, rfl, ?_, rfl⟩
  exact h.2.2.2.1 c9User { c9User with passwordHash := none } rfl rfl rfl rfl rfl

/-- **C10** counterexample. The claim that `updateCmsEntry` rejects every
slug change to a slug held by another entry — and hence that every mutation
preserves (collection, slug) uniqueness — fails at the empty string: the
source guard `if (slug && slug !== existingEntry.slug)` treats the empty
string as falsy and skips the conflict check, yet the UPDATE still writes
the empty slug.  Starting from a database satisfying the invariant (entries
("blog","a") and ("blog","")), renaming `e1` to `""` succeeds and leaves two
entries sharing ("blog",""). -/
theorem C10_empty_slug_breaks_invariant :
    slugUnique c10Db ∧ idsNodup c10Db ∧
    updateCmsEntry c10Db c10Params 9 =
      .ok ({ c10Db with
          entries := [{ c10EntryA with slug := "", updatedAt := 9 }, c10EntryEmpty] },
        some { c10EntryA with slug := "", updatedAt := 9 }) ∧
    ¬ slugUnique { c10Db with
        entries := [{ c10EntryA with slug := "", updatedAt := 9 }, c10EntryEmpty] } := by
  exact ⟨by decide, by decide, rfl, by decide⟩

/-- **C10** (status: corrected). Amended claim: under sequential execution
every mutation preserves the invariant that no two entries share the same
(collection, slug), provided any slug supplied to `updateCmsEntry` is
non-empty (or re-supplies the entry's own slug) — the empty string bypasses
the conflict check (JavaScript truthiness) yet is still written, which is
the only exception.  `createCmsEntry` rejects a create when any existing
entry, of any status, holds the (collection, slug) pair; `updateCmsEntry`
rejects a slug change to a held non-empty slug; and re-supplying the entry's
own current slug skips the conflict check entirely, so it succeeds even on a
database already containing a conflicting duplicate. -/
theorem C10_slug_invariant_amended (cfg : CmsRegistry) (db : Db) :
    (∀ p newId now db2 row, slugUnique db →
      createCmsEntry cfg db p newId now = .ok (db2, row) → slugUnique db2) ∧
    (∀ id db2, slugUnique db → deleteCmsEntry db id = .ok db2 → slugUnique db2) ∧
    (∀ (p : UpdateCmsEntryParams) now e db2 r, slugUnique db → idsNodup db →
      db.entries.find? (idPred p.id) = some e →
      (∀ s, p.slug = some s → s ≠ "" ∨ s = e.slug) →
      updateCmsEntry db p now = .ok (db2, r) → slugUnique db2) ∧
    (∀ (p : UpdateCmsEntryParams) now e s,
      db.entries.find? (idPred p.id) = some e →
      p.slug = some s → s ≠ "" → s ≠ e.slug →
      (∃ x ∈ db.entries, x.collection = e.collection ∧ x.slug = s) →
      updateCmsEntry db p now = .error (.duplicateSlug s e.collection)) ∧
    (∀ (p : UpdateCmsEntryParams) now e,
      db.entries.find? (idPred p.id) = some e → p.slug = some e.slug →
      ∃ db2 r, updateCmsEntry db p now = .ok (db2, r)) ∧
    (∀ p newId now c, cfg p.collectionSlug = some c →
      (∃ x ∈ db.entries, x.collection = c.slug ∧ x.slug = p.slug) →
      createCmsEntry cfg db p newId now = .error (.duplicateSlug p.slug c.slug)) := by
  refine ⟨?_, ?_, ?_, ?_, ?_, ?_⟩
  · intro p newId now db2 row hU hok
    cases hc : cfg p.collectionSlug with
    | none =>
      simp only [createCmsEntry, hc] at hok
      cases hok
    | some c =>
      cases hf : db.entries.find? (collSlugPred c.slug p.slug) with
      | some z =>
        simp only [createCmsEntry, hc, hf] at hok
        cases hok
      | none =>
        simp only [createCmsEntry, hc, hf] at hok
        injection hok with h1
        injection h1 with hdb hrow
        subst hdb
        show (db.entries ++ [mkNewEntry c p newId now]).Pairwise _
        rw [List.pairwise_append]
        refine ⟨hU, by simp, ?_⟩
        intro x hx b hb
        rw [List.mem_singleton] at hb
        subst hb
        rintro ⟨hc1, hc2⟩
        exact (List.find?_eq_none.mp hf x hx)
          (collSlugPred_eq_true.mpr ⟨hc1, hc2⟩)
  · intro id db2 hU hok
    cases hf : db.entries.find? (idPred id) with
    | none =>
      simp only [deleteCmsEntry, hf] at hok
      cases hok
    | some z =>
      simp only [deleteCmsEntry, hf] at hok
      injection hok with h1
      subst h1
      exact List.Pairwise.sublist (List.filter_sublist _) hU
  · intro p now e db2 r hU hN hfind hs hok
    simp only [updateCmsEntry, updateCmsEntryWith, hfind] at hok
    cases hcf : (if slugConflictCheckNeeded p e then
        db.entries.find? (collSlugPred e.collection (p.slug.getD "")) else none) with
    | some z =>
      rw [hcf] at hok
      cases hok
    | none =>
      rw [hcf] at hok
      by_cases hemp : updateSetEmpty p
      · rw [if_pos hemp] at hok
        cases hok
      · rw [if_neg hemp] at hok
        injection hok with h1
        injection h1 with hdb hrow
        subst hdb
        show (db.entries.map fun x =>
          if x.id = p.id then applyUpdate now p x else x).Pairwise _
        rw [List.pairwise_map]
        have hids : db.entries.Pairwise fun a b => a.id ≠ b.id :=
          List.pairwise_map.mp hN
        have heid : e.id = p.id := idPred_eq_true.mp (List.find?_some hfind)
        have hemem := List.mem_of_find?_eq_some hfind
        refine List.Pairwise.imp_of_mem ?_ (List.Pairwise.and hU hids)
        intro a b ha hb hab
        obtain ⟨hP, hid⟩ := hab
        by_cases haid : a.id = p.id
        · have hae : a = e :=
            List.inj_on_of_nodup_map hN ha hemem (by rw [haid, heid])
          have hbid : ¬ b.id = p.id := fun hh => hid (by rw [haid, ← hh])
          rw [if_pos haid, if_neg hbid]
          subst hae
          rintro ⟨hc1, hc2⟩
          have hcoll : (applyUpdate now p a).collection = a.collection := rfl
          have hslug : (applyUpdate now p a).slug = p.slug.getD a.slug := rfl
          rw [hcoll] at hc1
          rw [hslug] at hc2
          cases hps : p.slug with
          | none =>
            rw [hps] at hc2
            exact hP ⟨hc1, hc2⟩
          | some s =>
            rw [hps] at hc2
            simp only [Option.getD_some] at hc2
            by_cases hse : s = a.slug
            · exact hP ⟨hc1, by rw [← hse]; exact hc2⟩
            · have hsne : s ≠ "" := by
                cases hs s hps with
                | inl h => exact h
                | inr h => exact absurd h hse
              have hneed : slugConflictCheckNeeded p a = true := by
                simp [slugConflictCheckNeeded, hps, hsne, hse]
              rw [hneed] at hcf
              rw [if_pos rfl] at hcf
              apply List.find?_eq_none.mp hcf b hb
              apply collSlugPred_eq_true.mpr
              exact ⟨hc1.symm, by rw [hps]; simpa using hc2.symm⟩
        · by_cases hbid : b.id = p.id
          · have hbe : b = e :=
              List.inj_on_of_nodup_map hN hb hemem (by rw [hbid, heid])
            rw [if_neg haid, if_pos hbid]
            subst hbe
            rintro ⟨hc1, hc2⟩
            have hcoll : (applyUpdate now p b).collection = b.collection := rfl
            have hslug : (applyUpdate now p b).slug = p.slug.getD b.slug := rfl
            rw [hcoll] at hc1
            rw [hslug] at hc2
            cases hps : p.slug with
            | none =>
              rw [hps] at hc2
              exact hP ⟨hc1, hc2⟩
            | some s =>
              rw [hps] at hc2
              simp only [Option.getD_some] at hc2
              by_cases hse : s = b.slug
              · exact hP ⟨hc1, by rw [hc2, hse]⟩
              · have hsne : s ≠ "" := by
                  cases hs s hps with
                  | inl h => exact h
                  | inr h => exact absurd h hse
                have hneed : slugConflictCheckNeeded p b = true := by
                  simp [slugConflictCheckNeeded, hps, hsne, hse]
                rw [hneed] at hcf
                rw [if_pos rfl] at hcf
                apply List.find?_eq_none.mp hcf a ha
                apply collSlugPred_eq_true.mpr
                exact ⟨hc1, by rw [hps]; simpa using hc2⟩
          · rw [if_neg haid, if_neg hbid]
            exact hP
  · intro p now e s hfind hps hne hns hex
    simp only [updateCmsEntry, updateCmsEntryWith, hfind]
    have hneed : slugConflictCheckNeeded p e = true := by
      simp [slugConflictCheckNeeded, hps, hne, hns]
    rw [hneed]
    obtain ⟨x, hx, hxc, hxs⟩ := hex
    have hsome : (db.entries.find?
        (collSlugPred e.collection (p.slug.getD ""))).isSome := by
      rw [List.find?_isSome]
      refine ⟨x, hx, collSlugPred_eq_true.mpr ⟨hxc, ?_⟩⟩
      rw [hps]
      exact hxs
    obtain ⟨y, hy⟩ := Option.isSome_iff_exists.mp hsome
    rw [hps] at hy
    simp only [Option.getD_some] at hy
    simp [hps, hy]
  · intro p now e hfind hps
    have hneed : slugConflictCheckNeeded p e = false := by
      simp [slugConflictCheckNeeded, hps]
    have hne : ¬ updateSetEmpty p := fun h => by
      have h1 := h.1
      rw [hps] at h1
      exact Option.noConfusion h1
    refine ⟨{ db with entries := db.entries.map fun x => if x.id = p.id then applyUpdate now p x else x },
      ((db.entries.filter (idPred p.id)).map (applyUpdate now p)).head?, ?_⟩
    simp only [updateCmsEntry, updateCmsEntryWith, hfind, hneed]
    rw [if_neg hne]
    rfl
  · intro p newId now c hc hex
    obtain ⟨x, hx, hxc, hxs⟩ := hex
    cases hf : db.entries.find? (collSlugPred c.slug p.slug) with
    | none =>
      exact absurd (collSlugPred_eq_true.mpr ⟨hxc, hxs⟩)
        (List.find?_eq_none.mp hf x hx)
    | some z => simp [createCmsEntry, hc, hf]

/-- Witness for C10's amended theorem: a duplicate create is rejected
whatever the stored status, and a slug change to a fresh non-empty slug
preserves the invariant. -/
theorem C10_slug_invariant_amended_witness :
    createCmsEntry cmsConfigCollections wDb2 wCreateParams "id9" 9 =
      .error (.duplicateSlug "hello-world" "blog") ∧
    slugUnique { c10Db with
      entries := [{ c10EntryA with slug := "b", updatedAt := 9 }, c10EntryEmpty] } := by
  have h := C10_slug_invariant_amended cmsConfigCollections wDb2
  have h10 := C10_slug_invariant_amended cmsConfigCollections c10Db
  constructor
  · exact h.2.2.2.2.2 wCreateParams "id9" 9 blogCollection rfl
      ⟨wRow, by decide, by decide, by decide⟩
  · exact h10.2.2.1 { id := "e1", slug := some "b" } 9 c10EntryA
      ({ c10Db with
        entries := [{ c10EntryA with slug := "b", updatedAt := 9 }, c10EntryEmpty] })
      (some { c10EntryA with slug := "b", updatedAt := 9 })
      (by decide) (by decide) rfl
      (by intro s hs; cases hs; exact Or.inl (by decide)) rfl
